import Mathlib

/-!
Verification development for the BoMI-StartReact sensor-acquisition core.

The definitions below are a shallow embedding of the Python sources:
  - `src/bomi/device_managers/trigno/client.py` (`TrignoClient` and helpers),
  - `src/bomi/datastructure.py` (`YostBuffer`, `DelsysBuffer`, the Yost `Packet`),
  - `src/bomi/widgets/scope_widget.py` (`ScopeWidget.update`, `ScopeWidget.init_data`).

Machine floats of the Python code are embedded as rationals (`ℚ`); byte
strings as `List Nat`; sockets as explicit byte streams plus a schedule of
chunk sizes delivered by each `recv` call; the command socket as a reply
oracle `String → String`.

The `datastructure.py` present in the source tree is a stale Yost-era file:
its `Packet` NamedTuple (pitch/yaw/roll/battery/t/name) does not match the
keyword constructor calls `Packet(time=…, device_name=…, channel_readings=…)`
in `client.py`, and `MultichannelBuffer` / `AveragedMultichannelBuffer`
imported by `scope_widget.py` are absent from it.  Those missing streaming
definitions are modelled from the spec where needed; each such definition is
marked `Modelled from the spec:` in its doc comment.  Everything else is
translated from the source.
-/

/-- Python `int(s)` on the numeric reply strings of the command protocol.
Non-numeric input (which would raise `ValueError` in Python) is outside the
modelled domain and defaults to 0. -/
def pyInt (s : String) : Int :=
  s.toInt?.getD 0

/-- Python `float(s)` on the decimal reply strings of the command protocol
(optional sign, digits, optional fractional part).  Non-numeric input is
outside the modelled domain and defaults to 0. -/
def pyFloat (s : String) : ℚ :=
  let neg := s.startsWith "-"
  let s1 := if neg then s.drop 1 else s
  let mag : ℚ :=
    match s1.splitOn "." with
    | [a] => ((a.toNat?.getD 0 : Nat) : ℚ)
    | [a, b] => ((a.toNat?.getD 0 : Nat) : ℚ)
        + ((b.toNat?.getD 0 : Nat) : ℚ) / ((10 : ℚ) ^ b.length)
    | _ => 0
  if neg then -mag else mag

/-- Python list indexing `xs[i]` with negative-index wraparound.
Out-of-range access (an `IndexError` in Python) is outside the modelled
domain and defaults to 0. -/
def pyGet (xs : List ℚ) (i : Int) : ℚ :=
  if i < 0 then xs.getD (xs.length - (-i).toNat) 0 else xs.getD i.toNat 0

/-- Embeds `DSChannel` from `bomi/device_managers/trigno/datastructure.py`.
Modelled from the spec: that file is not under `src/` (only its importer
`client.py` is); the spec's SensorDescriptor lists per-channel
gain/sample-count/rate/units, matching the construction in
`TrignoClient.query_device`. -/
structure DSChannel where
  gain : ℚ
  samples : Int
  rate : ℚ
  units : String
deriving DecidableEq

/-- Embeds `EMGSensor` from `bomi/device_managers/trigno/datastructure.py`.
Modelled from the spec: that file is not under `src/`; the field set is the
one constructed in `TrignoClient.query_device` (serial, type, mode, firmware,
channel counts, start index, channels), matching the spec's
SensorDescriptor. -/
structure EMGSensor where
  serial : String
  type : String
  mode : Int
  firmware : String
  emg_channels : Int
  aux_channels : Int
  start_idx : Int
  channel_count : Int
  channels : List DSChannel
deriving DecidableEq

/-- `CHANNEL_LABEL = "Voltage"` from `client.py`. -/
def CHANNEL_LABEL : String := "Voltage"

/-- The streaming `Packet` constructed by `TrignoClient.stream_worker` and
consumed by `ScopeWidget.update`.  Modelled from the spec: "immutable value
{timestamp, device identifier, mapping of channel label → reading}".  The
field names are pinned down by the call sites
`Packet(time=…, device_name=…, channel_readings={…})` in `client.py` and
`packet.device_name` in `scope_widget.py`; the class itself is missing from
`src/` (the `datastructure.py` present holds a stale Yost-era `Packet` that
does not match these call sites, embedded separately as `YostPacket`).
The channel mapping is an association list of label/reading pairs. -/
structure Packet where
  time : ℚ
  device_name : String
  channel_readings : List (String × ℚ)
deriving DecidableEq

instance : Inhabited Packet := ⟨⟨0, "", []⟩⟩

/-- Per-frame body of `TrignoClient.stream_worker`:
`connected_sensors = [s for s in self.sensors if s is not None]`, then for
each such sensor `reading = abs(emg[sensor.start_idx - 1])` and one
`Packet(time=self.last_frame_time, device_name=str(sensor.start_idx),
channel_readings={CHANNEL_LABEL: reading})` is produced, in sensor order. -/
def streamWorkerEmit (sensors : List (Option EMGSensor)) (emg : List ℚ)
    (t : ℚ) : List Packet :=
  (sensors.filterMap id).map (fun sensor =>
    { time := t
      device_name := toString sensor.start_idx
      channel_readings := [(CHANNEL_LABEL, |pyGet emg (sensor.start_idx - 1)|)] })

/-- One frame of the stream-worker loop pushing onto the sink queue:
`queue.put(packet)` for each emitted packet (FIFO append). -/
def streamWorkerFrame (sensors : List (Option EMGSensor)) (emg : List ℚ)
    (t : ℚ) (queue : List Packet) : List Packet :=
  queue ++ streamWorkerEmit sensors emg t

theorem get_append_add {α : Type} (l₁ l₂ : List α) (j : Nat)
    (hj : j < l₂.length) (h : l₁.length + j < (l₁ ++ l₂).length) :
    (l₁ ++ l₂).get ⟨l₁.length + j, h⟩ = l₂.get ⟨j, hj⟩ := by
  simp only [List.get_eq_getElem]
  rw [List.getElem_append_right]
  · congr 1
    omega
  · omega

theorem get_append_left {α : Type} (l₁ l₂ : List α) (k : Nat)
    (hk : k < l₁.length) (h : k < (l₁ ++ l₂).length) :
    (l₁ ++ l₂).get ⟨k, h⟩ = l₁.get ⟨k, hk⟩ := by
  simp only [List.get_eq_getElem]
  exact List.getElem_append_left hk

/-- C1: for every decoded frame, the stream worker pushes onto the sink
queue exactly one Packet per active (non-None) sensor, in order; the packet
carries the frame timestamp, the device identifier `str(start_idx)`, and a
channel mapping binding `CHANNEL_LABEL` to the absolute value of the frame's
float at offset `start_idx - 1`. -/
theorem C1_stream_worker_emits_one_packet_per_sensor
    (sensors : List (Option EMGSensor)) (emg : List ℚ) (t : ℚ)
    (queue : List Packet) :
    let active := sensors.filterMap id
    let q' := streamWorkerFrame sensors emg t queue
    q'.length = queue.length + active.length ∧
    (∀ j, (hj : j < active.length) →
      ∃ hq : queue.length + j < q'.length,
        (q'.get ⟨queue.length + j, hq⟩).time = t ∧
        (q'.get ⟨queue.length + j, hq⟩).device_name
          = toString (active.get ⟨j, hj⟩).start_idx ∧
        ((q'.get ⟨queue.length + j, hq⟩).channel_readings).lookup CHANNEL_LABEL
          = some |pyGet emg ((active.get ⟨j, hj⟩).start_idx - 1)|) ∧
    (∀ k, (hk : k < queue.length) →
      ∃ hq : k < q'.length, q'.get ⟨k, hq⟩ = queue.get ⟨k, hk⟩) := by
  intro active q'
  have hlen : (streamWorkerEmit sensors emg t).length = active.length := by
    simp [streamWorkerEmit, active]
  refine ⟨?_, ?_, ?_⟩
  · simp [q', streamWorkerFrame, streamWorkerEmit, active]
  · intro j hj
    have hj' : j < (streamWorkerEmit sensors emg t).length := by omega
    have hq : queue.length + j < q'.length := by
      simp only [q', streamWorkerFrame, List.length_append]
      omega
    have hget : q'.get ⟨queue.length + j, hq⟩
        = (streamWorkerEmit sensors emg t).get ⟨j, hj'⟩ :=
      get_append_add queue (streamWorkerEmit sensors emg t) j hj' hq
    refine ⟨hq, ?_, ?_, ?_⟩
    · rw [hget]
      simp [streamWorkerEmit, active]
    · rw [hget]
      simp [streamWorkerEmit, active]
    · rw [hget]
      simp [streamWorkerEmit, active, List.lookup]
  · intro k hk
    have hq : k < q'.length := by
      simp only [q', streamWorkerFrame, List.length_append]
      omega
    exact ⟨hq, get_append_left queue (streamWorkerEmit sensors emg t) k hk hq⟩

/-- Concrete sensor for witnesses: slot table entry with `start_idx = 3`. -/
def wSensor : EMGSensor :=
  { serial := "81", type := "A", mode := 40, firmware := "1.0",
    emg_channels := 1, aux_channels := 0, start_idx := 3,
    channel_count := 0, channels := [] }

/-- Concrete sensor table for witnesses (one empty slot, one active sensor). -/
def wSensors : List (Option EMGSensor) := [none, some wSensor]

/-- Concrete 16-float frame for witnesses, negative at offset 2. -/
def wEmg : List ℚ := [0, 0, -5, 0, 0, 0, 0, 0, 0, 0, 0, 0, 0, 0, 0, 0]

theorem C1_stream_worker_emits_one_packet_per_sensor_witness :
    0 < (wSensors.filterMap id).length ∧
    (∃ hq : (0 : Nat) + 0 < (streamWorkerFrame wSensors wEmg 7 []).length,
      ((streamWorkerFrame wSensors wEmg 7 []).get ⟨0 + 0, hq⟩).time = 7 ∧
      ((streamWorkerFrame wSensors wEmg 7 []).get ⟨0 + 0, hq⟩).device_name
        = toString ((wSensors.filterMap id).get ⟨0, by decide⟩).start_idx ∧
      (((streamWorkerFrame wSensors wEmg 7 []).get
          ⟨0 + 0, hq⟩).channel_readings).lookup CHANNEL_LABEL
        = some |pyGet wEmg
            (((wSensors.filterMap id).get ⟨0, by decide⟩).start_idx - 1)|) := by
  refine ⟨by decide, ?_⟩
  exact (C1_stream_worker_emits_one_packet_per_sensor wSensors wEmg 7 []).2.1
    0 (by decide)

/-- `self.emg_sample_rate = self.max_samples_emg / self.frame_interval` from
`TrignoClient.open_connection`. -/
def emgSampleRate (frame_interval max_samples_emg : ℚ) : ℚ :=
  max_samples_emg / frame_interval

/-- `self.emg_sample_interval = 1 / self.emg_sample_rate` from
`TrignoClient.open_connection`. -/
def emgSampleInterval (frame_interval max_samples_emg : ℚ) : ℚ :=
  1 / emgSampleRate frame_interval max_samples_emg

/-- One iteration of the stream-worker loop: `recv_emg` advances
`self.last_frame_time += self.emg_sample_interval`, then the frame's packets
are stamped with the advanced time and appended to the queue. -/
def streamStep (sensors : List (Option EMGSensor)) (interval : ℚ)
    (st : List Packet × ℚ) (emg : List ℚ) : List Packet × ℚ :=
  (streamWorkerFrame sensors emg (st.2 + interval) st.1, st.2 + interval)

/-- A run of the stream worker over a list of decoded frames, starting from
`self.last_frame_time = self.start_time` as set by `TrignoClient.start_stream`. -/
def streamRun (sensors : List (Option EMGSensor)) (interval start : ℚ)
    (frames : List (List ℚ)) : List Packet × ℚ :=
  frames.foldl (streamStep sensors interval) ([], start)

theorem streamRun_foldl_snd (sensors : List (Option EMGSensor)) (interval : ℚ) :
    ∀ (frames : List (List ℚ)) (q : List Packet) (t : ℚ),
      (frames.foldl (streamStep sensors interval) (q, t)).2
        = t + frames.length * interval := by
  intro frames
  induction frames with
  | nil => intro q t; simp
  | cons f fs ih =>
      intro q t
      have h := ih (streamWorkerFrame sensors f (t + interval) q) (t + interval)
      simp only [List.foldl_cons, streamStep] at *
      rw [h]
      push_cast [List.length_cons]
      ring

theorem streamRun_foldl_fst (sensors : List (Option EMGSensor)) (interval : ℚ) :
    ∀ (frames : List (List ℚ)) (q : List Packet) (t : ℚ),
      (frames.foldl (streamStep sensors interval) (q, t)).1
        = q ++ (List.range frames.length).flatMap (fun k =>
            streamWorkerEmit sensors (frames.getD k [])
              (t + ((k : ℚ) + 1) * interval)) := by
  intro frames
  induction frames with
  | nil => intro q t; simp
  | cons f fs ih =>
      intro q t
      have h := ih (streamWorkerFrame sensors f (t + interval) q) (t + interval)
      simp only [List.foldl_cons, streamStep] at *
      rw [h, streamWorkerFrame]
      rw [List.length_cons, List.range_succ_eq_map, List.flatMap_cons,
        List.flatMap_map]
      rw [List.append_assoc]
      congr 1
      congr 1
      · congr 1
        norm_num
      · apply congrArg
        funext k
        rw [List.getD_cons_succ]
        congr 1
        push_cast
        ring

/-- C2 amended: every Packet of the k-th received frame (0-based) carries
the computed nominal timestamp `start_time + (k+1) × emg_sample_interval`,
where `emg_sample_interval = frame_interval / max_samples_emg`; consecutive
frames' timestamps are spaced by exactly one EMG sample interval (which
equals the frame interval only when `max_samples_emg = 1`), and the nominal
time advances deterministically from the recorded stream start (no wall-clock
read at receipt). -/
theorem C2_amended_nominal_timestamps (sensors : List (Option EMGSensor))
    (fi ms start : ℚ) (frames : List (List ℚ)) :
    (streamRun sensors (emgSampleInterval fi ms) start frames).1
      = (List.range frames.length).flatMap (fun k =>
          streamWorkerEmit sensors (frames.getD k [])
            (start + ((k : ℚ) + 1) * (fi / ms))) ∧
    (∀ f, (streamRun sensors (emgSampleInterval fi ms) start (frames ++ [f])).2
        - (streamRun sensors (emgSampleInterval fi ms) start frames).2
        = fi / ms) ∧
    (∀ k (p : Packet), p ∈ streamWorkerEmit sensors (frames.getD k [])
        (start + ((k : ℚ) + 1) * (fi / ms)) →
      p.time = start + ((k : ℚ) + 1) * (fi / ms)) ∧
    emgSampleInterval fi ms = fi / ms := by
  have hiv : emgSampleInterval fi ms = fi / ms := by
    rw [emgSampleInterval, emgSampleRate, one_div_div]
  refine ⟨?_, ?_, ?_, hiv⟩
  · rw [streamRun, streamRun_foldl_fst]
    simp [hiv]
  · intro f
    rw [streamRun, streamRun, streamRun_foldl_snd, streamRun_foldl_snd]
    rw [hiv]
    push_cast [List.length_append, List.length_cons, List.length_nil]
    ring
  · intro k p hp
    rw [streamWorkerEmit] at hp
    obtain ⟨s, hs, rfl⟩ := List.mem_map.mp hp
    rfl

theorem C2_amended_nominal_timestamps_witness :
    ((streamWorkerEmit wSensors wEmg (0 + (((0 : Nat) : ℚ) + 1) * (2 / 4))).getD 0
        default
      ∈ streamWorkerEmit wSensors (([wEmg] : List (List ℚ)).getD 0 [])
          (0 + (((0 : Nat) : ℚ) + 1) * (2 / 4))) ∧
    ((streamWorkerEmit wSensors wEmg (0 + (((0 : Nat) : ℚ) + 1) * (2 / 4))).getD 0
        default).time = 0 + (((0 : Nat) : ℚ) + 1) * (2 / 4) := by
  have hm : (streamWorkerEmit wSensors wEmg
        (0 + (((0 : Nat) : ℚ) + 1) * (2 / 4))).getD 0 default
      ∈ streamWorkerEmit wSensors (([wEmg] : List (List ℚ)).getD 0 [])
          (0 + (((0 : Nat) : ℚ) + 1) * (2 / 4)) := by
    simp [streamWorkerEmit, wSensors, wSensor, List.getD]
  exact ⟨hm, (C2_amended_nominal_timestamps wSensors 2 4 0 [wEmg]).2.2.1 0
    ((streamWorkerEmit wSensors wEmg
      (0 + (((0 : Nat) : ℚ) + 1) * (2 / 4))).getD 0 default) hm⟩

/-- C2 counterexample: with `frame_interval = 2` and `max_samples_emg = 4`,
consecutive frames' packets are spaced 1/2 apart, not one frame interval (2),
and neither packet timestamp equals `start + frame_index × frame_interval`
under either 0- or 1-based frame indexing. -/
theorem C2_counterexample_spacing_not_frame_interval :
    (((streamRun wSensors (emgSampleInterval 2 4) 0 [wEmg, wEmg]).1.getD 1
        default).time
      - ((streamRun wSensors (emgSampleInterval 2 4) 0 [wEmg, wEmg]).1.getD 0
        default).time) = 1 / 2 ∧
    (((streamRun wSensors (emgSampleInterval 2 4) 0 [wEmg, wEmg]).1.getD 1
        default).time
      - ((streamRun wSensors (emgSampleInterval 2 4) 0 [wEmg, wEmg]).1.getD 0
        default).time) ≠ (2 : ℚ) ∧
    ((streamRun wSensors (emgSampleInterval 2 4) 0 [wEmg, wEmg]).1.getD 0
        default).time ≠ 0 + 0 * (2 : ℚ) ∧
    ((streamRun wSensors (emgSampleInterval 2 4) 0 [wEmg, wEmg]).1.getD 0
        default).time ≠ 0 + 1 * (2 : ℚ) := by
  have hiv : emgSampleInterval 2 4 = 1 / 2 := by
    norm_num [emgSampleInterval, emgSampleRate]
  have e0 : ((streamRun wSensors (emgSampleInterval 2 4) 0
      [wEmg, wEmg]).1.getD 0 default).time = 1 / 2 := by
    rw [hiv]
    simp [streamRun, streamStep, streamWorkerFrame, streamWorkerEmit,
      wSensors, wSensor, List.getD]
  have e1 : ((streamRun wSensors (emgSampleInterval 2 4) 0
      [wEmg, wEmg]).1.getD 1 default).time = 1 := by
    rw [hiv]
    simp [streamRun, streamStep, streamWorkerFrame, streamWorkerEmit,
      wSensors, wSensor, List.getD]
    norm_num
  rw [e0, e1]
  norm_num

/-- Embeds the `Packet` NamedTuple actually present in
`src/bomi/datastructure.py` (one streaming batch from one Yost body sensor),
renamed `YostPacket` here to keep it apart from the streaming `Packet`
constructed by `client.py`. -/
structure YostPacket where
  pitch : ℚ
  yaw : ℚ
  roll : ℚ
  battery : Int
  t : ℚ
  name : String
deriving DecidableEq

/-- The derived row `_packet = (packet.roll, packet.pitch, packet.yaw,
abs(packet.roll) + abs(packet.pitch))` of `YostBuffer.add_packet`. -/
def yostRow (p : YostPacket) : ℚ × ℚ × ℚ × ℚ :=
  (p.roll, p.pitch, p.yaw, |p.roll| + |p.pitch|)

/-- Embeds the buffer arrays of `YostBuffer` in `datastructure.py`: a 1D
timestamp array and a 2D data array, both of length `bufsize`, initialised
with zeros.  The CSV file pointer and angle bookkeeping are side effects not
touched by the claim and are not modelled. -/
structure YostBuffer where
  timestamp : List ℚ
  data : List (ℚ × ℚ × ℚ × ℚ)
deriving DecidableEq

/-- `YostBuffer.add_packet`: `data[:-1] = data[1:]; data[-1] = _packet;
timestamp[:-1] = timestamp[1:]; timestamp[-1] = packet.t` — a left shift by
one with the new sample written at the end, never changing the array size. -/
def YostBuffer.add_packet (b : YostBuffer) (p : YostPacket) : YostBuffer :=
  { timestamp := b.timestamp.drop 1 ++ [p.t]
    data := b.data.drop 1 ++ [yostRow p] }

/-- Embeds the buffer arrays of `DelsysBuffer` in `datastructure.py`
(bufsize-length timestamp array, bufsize x 16 data array). -/
structure DelsysBuffer where
  timestamp : List ℚ
  data : List (List ℚ)
deriving DecidableEq

/-- `DelsysBuffer.add_packet`: the same left shift; the timestamp written is
a `default_timer()` wall-clock read, passed here as the oracle `now`. -/
def DelsysBuffer.add_packet (b : DelsysBuffer) (packet : List ℚ) (now : ℚ) :
    DelsysBuffer :=
  { timestamp := b.timestamp.drop 1 ++ [now]
    data := b.data.drop 1 ++ [packet] }

theorem shift_foldl_eq_drop {α : Type} :
    ∀ (xs init : List α), 1 ≤ init.length →
      xs.foldl (fun b x => b.drop 1 ++ [x]) init = (init ++ xs).drop xs.length := by
  intro xs
  induction xs with
  | nil => intro init h; simp
  | cons x xs ih =>
      intro init h
      have h1 : 1 ≤ (init.drop 1 ++ [x]).length := by simp
      simp only [List.foldl_cons]
      rw [ih (init.drop 1 ++ [x]) h1]
      cases init with
      | nil => simp at h
      | cons a l =>
          show ((l ++ [x]) ++ xs).drop xs.length
            = ((a :: l) ++ x :: xs).drop (x :: xs).length
          rw [List.append_assoc, List.singleton_append, List.cons_append,
            List.length_cons, List.drop_succ_cons]

theorem shift_foldl_length {α : Type} (xs init : List α)
    (h : 1 ≤ init.length) :
    (xs.foldl (fun b x => b.drop 1 ++ [x]) init).length = init.length := by
  rw [shift_foldl_eq_drop xs init h]
  simp [List.length_drop]

theorem yost_fold_data :
    ∀ (ps : List YostPacket) (b0 : YostBuffer),
      (ps.foldl YostBuffer.add_packet b0).data
        = (ps.map yostRow).foldl (fun b x => b.drop 1 ++ [x]) b0.data := by
  intro ps
  induction ps with
  | nil => intro b0; rfl
  | cons p ps ih =>
      intro b0
      simpa [YostBuffer.add_packet] using ih (b0.add_packet p)

theorem yost_fold_timestamp :
    ∀ (ps : List YostPacket) (b0 : YostBuffer),
      (ps.foldl YostBuffer.add_packet b0).timestamp
        = (ps.map (fun p => p.t)).foldl (fun b x => b.drop 1 ++ [x]) b0.timestamp := by
  intro ps
  induction ps with
  | nil => intro b0; rfl
  | cons p ps ih =>
      intro b0
      simpa [YostBuffer.add_packet] using ih (b0.add_packet p)

theorem delsys_fold_data :
    ∀ (ps : List (List ℚ × ℚ)) (b0 : DelsysBuffer),
      (ps.foldl (fun b pr => b.add_packet pr.1 pr.2) b0).data
        = (ps.map Prod.fst).foldl (fun b x => b.drop 1 ++ [x]) b0.data := by
  intro ps
  induction ps with
  | nil => intro b0; rfl
  | cons p ps ih =>
      intro b0
      simpa [DelsysBuffer.add_packet] using ih (b0.add_packet p.1 p.2)

theorem delsys_fold_timestamp :
    ∀ (ps : List (List ℚ × ℚ)) (b0 : DelsysBuffer),
      (ps.foldl (fun b pr => b.add_packet pr.1 pr.2) b0).timestamp
        = (ps.map Prod.snd).foldl (fun b x => b.drop 1 ++ [x]) b0.timestamp := by
  intro ps
  induction ps with
  | nil => intro b0; rfl
  | cons p ps ih =>
      intro b0
      simpa [DelsysBuffer.add_packet] using ih (b0.add_packet p.1 p.2)

theorem shift_foldl_full {α : Type} (xs init : List α)
    (h : init.length = xs.length) (h1 : 1 ≤ init.length) :
    xs.foldl (fun b x => b.drop 1 ++ [x]) init = xs := by
  rw [shift_foldl_eq_drop xs init h1]
  exact List.drop_left' h

theorem shift_foldl_evict {α : Type} (xs init : List α) (y : α)
    (h : init.length = xs.length) (h1 : 1 ≤ init.length) :
    (xs ++ [y]).foldl (fun b x => b.drop 1 ++ [x]) init = xs.drop 1 ++ [y] := by
  rw [shift_foldl_eq_drop _ init h1, List.length_append, List.length_singleton]
  rw [show init ++ (xs ++ [y]) = (init ++ xs) ++ [y] from
    (List.append_assoc init xs [y]).symm]
  rw [List.drop_append_of_le_length (by simp [List.length_append]; omega)]
  congr 1
  rw [show xs.length + 1 = init.length + 1 from by omega]
  rw [← List.drop_drop, List.drop_left]

/-- C3: for every buffer of fixed capacity `C ≥ 1` and every insert sequence
via `add_packet`: after `C` inserts the buffer holds exactly those `C`
samples in arrival order; the `(C+1)`-th insert evicts precisely the oldest
sample and retains the newest `C`; the buffer length stays `C` after every
insert.  Stated for both `YostBuffer` (rows and timestamps) and
`DelsysBuffer` (rows). -/
theorem C3_buffer_capacity_and_eviction (C : Nat) (hC : 1 ≤ C) :
    (∀ (b0 : YostBuffer) (ps : List YostPacket) (p : YostPacket),
      b0.data.length = C → b0.timestamp.length = C →
      (ps.length = C →
        (ps.foldl YostBuffer.add_packet b0).data = ps.map yostRow ∧
        (ps.foldl YostBuffer.add_packet b0).timestamp
          = ps.map (fun q => q.t) ∧
        ((ps ++ [p]).foldl YostBuffer.add_packet b0).data
          = (ps.map yostRow).drop 1 ++ [yostRow p] ∧
        ((ps ++ [p]).foldl YostBuffer.add_packet b0).timestamp
          = (ps.map (fun q => q.t)).drop 1 ++ [p.t]) ∧
      ((ps.foldl YostBuffer.add_packet b0).data.length = C ∧
        (ps.foldl YostBuffer.add_packet b0).timestamp.length = C)) ∧
    (∀ (b0 : DelsysBuffer) (ps : List (List ℚ × ℚ)) (row : List ℚ) (now : ℚ),
      b0.data.length = C → b0.timestamp.length = C →
      (ps.length = C →
        (ps.foldl (fun b pr => b.add_packet pr.1 pr.2) b0).data
          = ps.map Prod.fst ∧
        ((ps ++ [(row, now)]).foldl (fun b pr => b.add_packet pr.1 pr.2)
            b0).data = (ps.map Prod.fst).drop 1 ++ [row]) ∧
      (ps.foldl (fun b pr => b.add_packet pr.1 pr.2) b0).data.length = C) := by
  constructor
  · intro b0 ps p hd ht
    constructor
    · intro hps
      refine ⟨?_, ?_, ?_, ?_⟩
      · rw [yost_fold_data]
        exact shift_foldl_full (ps.map yostRow) b0.data
          (by simp [hd, hps]) (by omega)
      · rw [yost_fold_timestamp]
        exact shift_foldl_full (ps.map (fun q => q.t)) b0.timestamp
          (by simp [ht, hps]) (by omega)
      · rw [yost_fold_data, List.map_append, List.map_singleton]
        exact shift_foldl_evict (ps.map yostRow) b0.data (yostRow p)
          (by simp [hd, hps]) (by omega)
      · rw [yost_fold_timestamp, List.map_append, List.map_singleton]
        exact shift_foldl_evict (ps.map (fun q => q.t)) b0.timestamp p.t
          (by simp [ht, hps]) (by omega)
    · constructor
      · rw [yost_fold_data]
        rw [shift_foldl_length (ps.map yostRow) b0.data (by omega)]
        exact hd
      · rw [yost_fold_timestamp]
        rw [shift_foldl_length (ps.map (fun q => q.t)) b0.timestamp (by omega)]
        exact ht
  · intro b0 ps row now hd ht
    constructor
    · intro hps
      constructor
      · rw [delsys_fold_data]
        exact shift_foldl_full (ps.map Prod.fst) b0.data
          (by simp [hd, hps]) (by omega)
      · rw [delsys_fold_data, List.map_append, List.map_singleton]
        exact shift_foldl_evict (ps.map Prod.fst) b0.data row
          (by simp [hd, hps]) (by omega)
    · rw [delsys_fold_data]
      rw [shift_foldl_length (ps.map Prod.fst) b0.data (by omega)]
      exact hd

/-- Concrete Yost-buffer start state for witnesses: capacity 2, zeros. -/
def b0Y : YostBuffer := ⟨[0, 0], [(0, 0, 0, 0), (0, 0, 0, 0)]⟩

/-- Concrete Yost packets for witnesses. -/
def p1w : YostPacket := ⟨1, 2, 3, 90, 10, "a"⟩

def p2w : YostPacket := ⟨-4, 5, -6, 80, 11, "a"⟩

def p3w : YostPacket := ⟨7, 8, 9, 70, 12, "a"⟩

theorem C3_buffer_capacity_and_eviction_witness :
    1 ≤ 2 ∧ b0Y.data.length = 2 ∧ b0Y.timestamp.length = 2 ∧
    ([p1w, p2w] : List YostPacket).length = 2 ∧
    ([p1w, p2w].foldl YostBuffer.add_packet b0Y).data
      = [p1w, p2w].map yostRow ∧
    (([p1w, p2w] ++ [p3w]).foldl YostBuffer.add_packet b0Y).data
      = ([p1w, p2w].map yostRow).drop 1 ++ [yostRow p3w] := by
  refine ⟨by decide, by decide, by decide, by decide, ?_, ?_⟩
  · exact (((C3_buffer_capacity_and_eviction 2 (by decide)).1 b0Y [p1w, p2w]
      p3w (by decide) (by decide)).1 (by decide)).1
  · exact (((C3_buffer_capacity_and_eviction 2 (by decide)).1 b0Y [p1w, p2w]
      p3w (by decide) (by decide)).1 (by decide)).2.2.1

/-- Externally observable actions of the client teardown paths: joining the
worker thread, sending a command string over the command socket, and closing
the command / EMG data sockets. -/
inductive TEv where
  | joinWorker : TEv
  | send : String → TEv
  | closeCmd : TEv
  | closeData : TEv
deriving DecidableEq

/-- The `TrignoClient` fields touched by `_init_state`, `stop_stream` and
`close_connection`.  `worker = true` models `self._worker_thread is not
None`; `doneStreaming` models the `self._done_streaming` event flag; the
sockets themselves are modelled by the close events. -/
structure CState where
  connected : Bool
  doneStreaming : Bool
  worker : Bool
  sensors : List (Option EMGSensor)
  sensor_idx : List Nat
  n_sensors : Nat
  start_time : ℚ
  last_frame_time : Option ℚ
deriving DecidableEq

/-- `TrignoClient._init_state` (fresh unset done-streaming event, no worker,
empty 17-slot sensor table, zeroed times) together with the pre-connect
`self.connected = False` set by `__init__` and by `close_connection`. -/
def initState : CState :=
  { connected := false, doneStreaming := false, worker := false,
    sensors := List.replicate 17 none, sensor_idx := [], n_sensors := 0,
    start_time := 0, last_frame_time := none }

/-- `TrignoClient.stop_stream`: set the stop flag; join the worker if one
exists (`self._worker_thread and self._worker_thread.join()`); then, if
connected, send "STOP".  The worker reference is not cleared. -/
def stop_stream (s : CState) : CState × List TEv :=
  ({ s with doneStreaming := true },
    (if s.worker then [TEv.joinWorker] else [])
      ++ (if s.connected then [TEv.send "STOP"] else []))

/-- `TrignoClient.close_connection`: `stop_stream()`, close both sockets,
`_init_state()`, `connected = False`.  No "QUIT" is sent on this path. -/
def close_connection (s : CState) : CState × List TEv :=
  (initState, (stop_stream s).2 ++ [TEv.closeCmd, TEv.closeData])

/-- C4 amended: `stop_stream` sets the stop flag and, whenever the worker
join occurs, it precedes the "STOP" send; a repeat call with no worker, no
connection and the flag already set is a no-op; but while connected the
method sends "STOP" on every call, even with no worker — so a second call is
a no-op only when disconnected. -/
theorem C4_amended_stop_stream_joins_before_stop (s : CState) :
    (stop_stream s).1.doneStreaming = true ∧
    (∀ i j, (hi : i < (stop_stream s).2.length) →
      (hj : j < (stop_stream s).2.length) →
      (stop_stream s).2.get ⟨i, hi⟩ = TEv.joinWorker →
      (stop_stream s).2.get ⟨j, hj⟩ = TEv.send "STOP" → i < j) ∧
    (s.worker = false → s.connected = false → s.doneStreaming = true →
      (stop_stream s).1 = s ∧ (stop_stream s).2 = []) ∧
    (s.connected = true → TEv.send "STOP" ∈ (stop_stream s).2) := by
  refine ⟨rfl, ?_, ?_, ?_⟩
  · intro i j hi hj hgi hgj
    by_cases hw : s.worker <;> by_cases hc : s.connected
    · simp [stop_stream, hw, hc] at hi hj hgi hgj
      interval_cases i <;> interval_cases j <;> simp_all
    · simp [stop_stream, hw, hc] at hj hgj
    · simp [stop_stream, hw, hc] at hi hgi
    · simp [stop_stream, hw, hc] at hi
  · intro hw hc hd
    constructor
    · show { s with doneStreaming := true } = s
      cases s
      simp_all
    · simp [stop_stream, hw, hc]
  · intro hc
    by_cases hw : s.worker <;> simp [stop_stream, hw, hc]

/-- Concrete state for the C4 counterexample and witnesses: connected, stop
flag already set, no worker thread. -/
def sNoWorkerConn : CState :=
  { initState with connected := true, doneStreaming := true }

/-- Concrete state with both a worker and a connection. -/
def sFullStream : CState :=
  { initState with connected := true, worker := true }

/-- Concrete disconnected state with the stop flag already set. -/
def sNoOpSt : CState := { initState with doneStreaming := true }

/-- C4 counterexample: invoking `stop_stream` when no worker is running but
the client is connected is not a no-op — it (re-)sends "STOP". -/
theorem C4_counterexample_second_call_resends_stop :
    sNoWorkerConn.worker = false ∧
    (stop_stream sNoWorkerConn).2 = [TEv.send "STOP"] ∧
    (stop_stream sNoWorkerConn).2 ≠ [] := by
  refine ⟨rfl, rfl, by decide⟩

theorem C4_amended_stop_stream_joins_before_stop_witness :
    ((stop_stream sFullStream).2.get ⟨0, by decide⟩ = TEv.joinWorker) ∧
    ((stop_stream sFullStream).2.get ⟨1, by decide⟩ = TEv.send "STOP") ∧
    (0 : Nat) < 1 ∧
    sNoOpSt.worker = false ∧ sNoOpSt.connected = false ∧
    sNoOpSt.doneStreaming = true ∧
    (stop_stream sNoOpSt).1 = sNoOpSt ∧ (stop_stream sNoOpSt).2 = [] ∧
    sFullStream.connected = true ∧
    TEv.send "STOP" ∈ (stop_stream sFullStream).2 := by
  have h := C4_amended_stop_stream_joins_before_stop sFullStream
  have h2 := C4_amended_stop_stream_joins_before_stop sNoOpSt
  have hno := h2.2.2.1 rfl rfl rfl
  exact ⟨by decide, by decide,
    h.2.1 0 1 (by decide) (by decide) (by decide) (by decide),
    rfl, rfl, rfl, hno.1, hno.2, rfl, h.2.2.2 rfl⟩

/-- C5 amended: `close_connection` stops any active stream first (sending
"STOP" while connected, any worker join preceding it), closes both sockets,
and resets all client state to the pre-connect defaults; it never sends
"QUIT" (that is the separate `close()` teardown); repeat calls are safe — a
second call finds the reset, disconnected state and only closes the fresh
sockets again. -/
theorem C5_amended_close_connection_resets_no_quit (s : CState) :
    (close_connection s).1 = initState ∧
    TEv.send "QUIT" ∉ (close_connection s).2 ∧
    (s.connected = true → TEv.send "STOP" ∈ (close_connection s).2) ∧
    TEv.closeCmd ∈ (close_connection s).2 ∧
    TEv.closeData ∈ (close_connection s).2 ∧
    close_connection (close_connection s).1
      = (initState, [TEv.closeCmd, TEv.closeData]) := by
  refine ⟨rfl, ?_, ?_, ?_, ?_, rfl⟩
  · by_cases hw : s.worker <;> by_cases hc : s.connected <;>
      simp only [close_connection, stop_stream, hw, hc, if_true, if_false] <;>
      decide
  · intro hc
    by_cases hw : s.worker <;>
      simp only [close_connection, stop_stream, hw, hc, if_true, if_false] <;>
      decide
  · by_cases hw : s.worker <;> by_cases hc : s.connected <;>
      simp only [close_connection, stop_stream, hw, hc, if_true, if_false] <;>
      decide
  · by_cases hw : s.worker <;> by_cases hc : s.connected <;>
      simp only [close_connection, stop_stream, hw, hc, if_true, if_false] <;>
      decide

/-- Concrete connected client state. -/
def sConn : CState := { initState with connected := true }

/-- C5 counterexample: on a connected client, `close_connection` sends no
"QUIT" at all, contradicting "sends QUIT if connected". -/
theorem C5_counterexample_no_quit_sent :
    sConn.connected = true ∧
    TEv.send "QUIT" ∉ (close_connection sConn).2 ∧
    (close_connection sConn).2
      = [TEv.send "STOP", TEv.closeCmd, TEv.closeData] := by
  refine ⟨rfl, by decide, rfl⟩

theorem C5_amended_close_connection_resets_no_quit_witness :
    sConn.connected = true ∧
    TEv.send "STOP" ∈ (close_connection sConn).2 ∧
    (close_connection sConn).1 = initState := by
  have h := C5_amended_close_connection_resets_no_quit sConn
  exact ⟨rfl, h.2.2.1 rfl, h.1⟩

/-- Outcome of the blocking TCP connect (and banner read) attempted inside
`open_connection`'s try block. -/
inductive ConnectOutcome where
  | success : ConnectOutcome
  | timedOut : String → ConnectOutcome
  | refused : ConnectOutcome
deriving DecidableEq

/-- A Python exception escaping the modelled code uncaught. -/
inductive PyExc where
  | connectionRefused : PyExc
deriving DecidableEq

/-- The connect phase of `TrignoClient.open_connection`: the try block
attempts the two socket connects and the banner read; the sole handler is
`except TimeoutError as e`, which returns the descriptive error string
`"Failed to connect to Base Station: " + str(e)`.  A refused connection
raises `ConnectionRefusedError`, which is not a subclass of `TimeoutError`
and therefore propagates.  The result is the connected flag plus the
returned string; an uncaught exception is `Except.error`. -/
def openConnectionConnect (connected : Bool) (oc : ConnectOutcome) :
    Except PyExc (Bool × String) :=
  if connected then Except.ok (true, "") else
  match oc with
  | ConnectOutcome.success => Except.ok (true, "")
  | ConnectOutcome.timedOut msg =>
      Except.ok (false, "Failed to connect to Base Station: " ++ msg)
  | ConnectOutcome.refused => Except.error PyExc.connectionRefused

/-- C6: with the base station port closed, the connect raises
`ConnectionRefusedError` and `open_connection` propagates it uncaught — only
`TimeoutError` is handled — contradicting the claim (and the method's own
docstring "Returns error string if failed to connect"); the timeout case, by
contrast, is returned as a descriptive error string. -/
theorem C6_refused_connection_propagates_uncaught :
    openConnectionConnect false ConnectOutcome.refused
      = Except.error PyExc.connectionRefused ∧
    (∀ e : Except PyExc (Bool × String),
      openConnectionConnect false ConnectOutcome.refused = e →
      ∀ p : Bool × String, e ≠ Except.ok p) ∧
    openConnectionConnect false (ConnectOutcome.timedOut "timed out")
      = Except.ok (false, "Failed to connect to Base Station: timed out") := by
  refine ⟨rfl, ?_, rfl⟩
  intro e he p
  rw [← he]
  intro hcontra
  simp [openConnectionConnect] at hcontra

/-- `recv_sz(sock, sz)` from `client.py`: accumulate `sock.recv(sz - len(buf))`
into `buf` until `len(buf) < sz` fails, never discarding received bytes.
The data socket is modelled by the byte stream `stream` (all bytes the
kernel will deliver, in order) and the schedule `sched` of chunk sizes: the
i-th `recv(n)` call returns the next `min(sched_i, n)` undelivered bytes.
`none` means the schedule ran out before the frame completed (the Python
loop would still be blocked in `recv`). -/
def recvSzAux (stream : List Nat) (sz : Nat) :
    List Nat → List Nat → Option (List Nat)
  | sched, buf =>
    if sz ≤ buf.length then some buf
    else
      match sched with
      | [] => none
      | c :: rest =>
          recvSzAux stream sz rest
            (buf ++ (stream.drop buf.length).take (min c (sz - buf.length)))

/-- `recv_sz` starting from the empty buffer `b""`. -/
def recv_sz (stream sched : List Nat) (sz : Nat) : Option (List Nat) :=
  recvSzAux stream sz sched []

/-- The decode of `recv_emg`: `struct.unpack("<ffffffffffffffff", buf)` —
a fixed-length array of 16 little-endian 32-bit values (one per channel
slot, independent of how many sensors are active).  The little-endian byte
assembly of each 32-bit pattern is modelled; its IEEE-754 reinterpretation
is a bit-identical relabelling and is left abstract. -/
def unpackLE16 (buf : List Nat) : List Nat :=
  (List.range 16).map (fun j =>
    buf.getD (4 * j) 0 + 256 * buf.getD (4 * j + 1) 0
      + 65536 * buf.getD (4 * j + 2) 0 + 16777216 * buf.getD (4 * j + 3) 0)

/-- The read of `recv_emg`: `recv_sz(self.emg_data_sock, 4 * 16)` — the
requested byte count is the constant 4 × 16, whatever sensors are active. -/
def recvEmgBytes (stream sched : List Nat) : Option (List Nat) :=
  recv_sz stream sched (4 * 16)

/-- `recv_emg` = exact-size read followed by the fixed 16-float decode. -/
def recvEmgFrame (stream sched : List Nat) : Option (List Nat) :=
  (recvEmgBytes stream sched).map unpackLE16

theorem take_min_length {α : Type} (l : List α) (K : Nat) :
    l.take (min K l.length) = l.take K := by
  rcases le_total K l.length with h | h
  · rw [min_eq_left h]
  · rw [min_eq_right h, List.take_length, List.take_of_length_le h]

theorem recvSzAux_spec (stream : List Nat) (sz : Nat) :
    ∀ (sched buf : List Nat), buf = stream.take buf.length →
      buf.length ≤ sz →
      ∀ r, recvSzAux stream sz sched buf = some r →
        r = stream.take sz ∧ r.length = sz := by
  intro sched
  induction sched with
  | nil =>
      intro buf hpre hle r hr
      rw [recvSzAux] at hr
      by_cases hex : sz ≤ buf.length
      · rw [if_pos hex] at hr
        have hbuf : buf.length = sz := le_antisymm hle hex
        cases hr
        exact ⟨by rw [hpre, hbuf], hbuf⟩
      · rw [if_neg hex] at hr
        cases hr
  | cons c rest ih =>
      intro buf hpre hle r hr
      rw [recvSzAux] at hr
      by_cases hex : sz ≤ buf.length
      · rw [if_pos hex] at hr
        have hbuf : buf.length = sz := le_antisymm hle hex
        cases hr
        exact ⟨by rw [hpre, hbuf], hbuf⟩
      · rw [if_neg hex] at hr
        set m := min c (sz - buf.length) with hm
        have hnew : buf ++ (stream.drop buf.length).take m
            = stream.take (buf.length + m) := by
          conv_rhs => rw [List.take_add]
          rw [← hpre]
        have hlen : (buf ++ (stream.drop buf.length).take m).length
            = min (buf.length + m) stream.length := by
          rw [hnew, List.length_take]
        refine ih (buf ++ (stream.drop buf.length).take m) ?_ ?_ r hr
        · rw [hlen, hnew, take_min_length]
        · rw [hlen]
          have h1 : m ≤ sz - buf.length := min_le_right c (sz - buf.length)
          have h2 : min (buf.length + m) stream.length ≤ buf.length + m :=
            min_le_left (buf.length + m) stream.length
          omega

/-- C7: every completed streaming read obtains exactly 4 × 16 = 64 bytes —
the first 64 bytes of the data stream, accumulated across partial reads
without ever discarding one — and the decode is a fixed-length array of 16
little-endian 32-bit values (value j assembled from bytes 4j..4j+3 in
little-endian order), independent of how many sensors are active. -/
theorem C7_exact_frame_read_and_le_decode (stream sched r : List Nat)
    (h : recvEmgBytes stream sched = some r) :
    r = stream.take (4 * 16) ∧ r.length = 64 ∧
    (unpackLE16 r).length = 16 ∧
    (∀ j, j < 16 → (unpackLE16 r).getD j 0
      = r.getD (4 * j) 0 + 256 * r.getD (4 * j + 1) 0
        + 65536 * r.getD (4 * j + 2) 0 + 16777216 * r.getD (4 * j + 3) 0) ∧
    recvEmgFrame stream sched = some (unpackLE16 r) := by
  have hspec := recvSzAux_spec stream (4 * 16) sched [] rfl (by simp) r h
  refine ⟨hspec.1, hspec.2, by simp [unpackLE16], ?_, ?_⟩
  · intro j hj
    rw [unpackLE16, List.getD_eq_getElem?_getD, List.getElem?_map,
      List.getElem?_range hj]
    rfl
  · rw [recvEmgFrame, h]
    rfl

/-- Concrete byte stream for the C7 witness. -/
def wStream : List Nat := List.range 70

theorem C7_exact_frame_read_and_le_decode_witness :
    recvEmgBytes wStream [10, 30, 100] = some (wStream.take (4 * 16)) ∧
    (wStream.take (4 * 16)).length = 64 ∧
    (unpackLE16 (wStream.take (4 * 16))).length = 16 := by
  have h : recvEmgBytes wStream [10, 30, 100]
      = some (wStream.take (4 * 16)) := by decide
  have hc := C7_exact_frame_read_and_le_decode wStream [10, 30, 100]
    (wStream.take (4 * 16)) h
  exact ⟨h, hc.2.1, hc.2.2.1⟩

/-- The metadata query block of `TrignoClient.query_device`, issued once the
PAIRED?/ACTIVE? gate passes; `reply` is the command-socket oracle (each
command elicits exactly one trimmed reply).  The `SETMODE 40` command is
issued for its side effect only and contributes no field. -/
def queryDeviceBuild (reply : String → String) (i : Nat) : EMGSensor :=
  let pre := "SENSOR " ++ toString i ++ " "
  let cc : Int := pyInt (reply (pre ++ "CHANNELCOUNT?"))
  { serial := reply (pre ++ "SERIAL?")
    type := reply (pre ++ "TYPE?")
    mode := pyInt (reply (pre ++ "MODE?"))
    firmware := reply (pre ++ "FIRMWARE?")
    emg_channels := pyInt (reply (pre ++ "EMGCHANNELCOUNT?"))
    aux_channels := pyInt (reply (pre ++ "AUXCHANNELCOUNT?"))
    start_idx := pyInt (reply (pre ++ "STARTINDEX?"))
    channel_count := cc
    channels := (List.range cc.toNat).map (fun j0 =>
      let js := toString (j0 + 1)
      { gain := pyFloat (reply (pre ++ "CHANNEL " ++ js ++ " GAIN?"))
        samples := pyInt (reply (pre ++ "CHANNEL " ++ js ++ " SAMPLES?"))
        rate := pyFloat (reply (pre ++ "CHANNEL " ++ js ++ " RATE?"))
        units := reply (pre ++ "CHANNEL " ++ js ++ " UNITS?") }) }

/-- `TrignoClient.query_device(i)`: skip the index (return None) when the
PAIRED? reply is "NO", then when the ACTIVE? reply is "NO"; otherwise build
the sensor entry from the ordered metadata queries. -/
def query_device (reply : String → String) (i : Nat) : Option EMGSensor :=
  if reply ("SENSOR " ++ toString i ++ " PAIRED?") = "NO" then none
  else if reply ("SENSOR " ++ toString i ++ " ACTIVE?") = "NO" then none
  else some (queryDeviceBuild reply i)

/-- `[i for i, s in enumerate(sensors) if s]`: the indices of truthy
entries, in enumeration order. -/
def idxWhereSome {α : Type} : List (Option α) → Nat → List Nat
  | [], _ => []
  | none :: l, i => idxWhereSome l (i + 1)
  | some _ :: l, i => i :: idxWhereSome l (i + 1)

/-- `TrignoClient.query_devices`: `self.sensors[i] = self.query_device(i)`
for `i in range(1, 17)` (slot 0 of the 17-slot table is never written and
stays None); then `sensor_idx = [i for i, s in enumerate(self.sensors) if s]`
and `n_sensors = sum([1 for s in self.sensors if s])`. -/
def query_devices (reply : String → String) :
    List (Option EMGSensor) × List Nat × Nat :=
  let sensors := none :: (List.range' 1 16).map (query_device reply)
  (sensors, idxWhereSome sensors 0,
    (sensors.filter (fun s => s.isSome)).length)

theorem idxWhereSome_map_range' {β : Type} (f : Nat → Option β) :
    ∀ (n s : Nat), idxWhereSome ((List.range' s n).map f) s
      = (List.range' s n).filter (fun i => (f i).isSome) := by
  intro n
  induction n with
  | zero => intro s; rfl
  | succ n ih =>
      intro s
      rw [show List.range' s (n + 1) = s :: List.range' (s + 1) n from rfl]
      rw [List.map_cons, List.filter_cons]
      cases hf : f s with
      | none => simp [idxWhereSome, hf, ih (s + 1)]
      | some b => simp [idxWhereSome, hf, ih (s + 1)]

theorem idxWhereSome_length {α : Type} :
    ∀ (l : List (Option α)) (s : Nat),
      (idxWhereSome l s).length = (l.filter (fun o => o.isSome)).length := by
  intro l
  induction l with
  | nil => intro s; rfl
  | cons a l ih =>
      intro s
      cases a with
      | none => simp [idxWhereSome, ih (s + 1)]
      | some b => simp [idxWhereSome, ih (s + 1)]

/-- C8: discovery covers exactly the fixed index range 1..16 in ascending
order; an index is skipped (left None) precisely when its PAIRED? or ACTIVE?
reply is negative; with replies confined to YES/NO the derived index list is
exactly the ascending list of indices replying PAIRED = YES and ACTIVE =
YES, the sensor count matches its length, and slot 0 stays empty. -/
theorem C8_discovery_paired_active_ascending (reply : String → String)
    (hp : ∀ i ∈ List.range' 1 16,
      reply ("SENSOR " ++ toString i ++ " PAIRED?") = "YES"
        ∨ reply ("SENSOR " ++ toString i ++ " PAIRED?") = "NO")
    (ha : ∀ i ∈ List.range' 1 16,
      reply ("SENSOR " ++ toString i ++ " ACTIVE?") = "YES"
        ∨ reply ("SENSOR " ++ toString i ++ " ACTIVE?") = "NO") :
    (query_devices reply).2.1
      = (List.range' 1 16).filter (fun i =>
          (reply ("SENSOR " ++ toString i ++ " PAIRED?") == "YES")
            && (reply ("SENSOR " ++ toString i ++ " ACTIVE?") == "YES")) ∧
    (query_devices reply).2.2 = (query_devices reply).2.1.length ∧
    (query_devices reply).2.1.Sorted (· < ·) ∧
    (query_devices reply).1.getD 0 none = none ∧
    (∀ i, reply ("SENSOR " ++ toString i ++ " PAIRED?") = "NO"
        ∨ reply ("SENSOR " ++ toString i ++ " ACTIVE?") = "NO" →
      query_device reply i = none) := by
  have hidx : (query_devices reply).2.1
      = (List.range' 1 16).filter (fun i => (query_device reply i).isSome) := by
    show idxWhereSome (none :: (List.range' 1 16).map (query_device reply)) 0
      = _
    rw [show idxWhereSome
        (none :: (List.range' 1 16).map (query_device reply)) 0
      = idxWhereSome ((List.range' 1 16).map (query_device reply)) 1 from rfl]
    exact idxWhereSome_map_range' (query_device reply) 16 1
  have hcong : (List.range' 1 16).filter
        (fun i => (query_device reply i).isSome)
      = (List.range' 1 16).filter (fun i =>
          (reply ("SENSOR " ++ toString i ++ " PAIRED?") == "YES")
            && (reply ("SENSOR " ++ toString i ++ " ACTIVE?") == "YES")) := by
    apply List.filter_congr
    intro i hi
    rcases hp i hi with hpy | hpn
    · rcases ha i hi with hay | han
      · simp [query_device, hpy, hay]
      · simp [query_device, hpy, han]
    · simp [query_device, hpn]
  refine ⟨hidx.trans hcong, ?_, ?_, rfl, ?_⟩
  · show (((none :: (List.range' 1 16).map (query_device reply)).filter
        (fun s => s.isSome)).length) = _
    rw [← idxWhereSome_length (none :: (List.range' 1 16).map
      (query_device reply)) 0]
    rfl
  · rw [hidx]
    exact List.Pairwise.sublist (List.filter_sublist (List.range' 1 16))
      (List.pairwise_lt_range' 1 16)
  · intro i hi
    rcases hi with hno | hno
    · simp [query_device, hno]
    · by_cases hpn : reply ("SENSOR " ++ toString i ++ " PAIRED?") = "NO" <;>
        simp [query_device, hpn, hno]

/-- Canned command-socket replies for the C8 witness: indices 3 and 7 report
paired and active, every other reply is "NO". -/
def wReply : String → String := fun c =>
  if c = "SENSOR 3 PAIRED?" then "YES"
  else if c = "SENSOR 3 ACTIVE?" then "YES"
  else if c = "SENSOR 7 PAIRED?" then "YES"
  else if c = "SENSOR 7 ACTIVE?" then "YES"
  else "NO"

theorem C8_discovery_paired_active_ascending_witness :
    (∀ i ∈ List.range' 1 16,
      wReply ("SENSOR " ++ toString i ++ " PAIRED?") = "YES"
        ∨ wReply ("SENSOR " ++ toString i ++ " PAIRED?") = "NO") ∧
    (∀ i ∈ List.range' 1 16,
      wReply ("SENSOR " ++ toString i ++ " ACTIVE?") = "YES"
        ∨ wReply ("SENSOR " ++ toString i ++ " ACTIVE?") = "NO") ∧
    (query_devices wReply).2.1
      = (List.range' 1 16).filter (fun i =>
          (wReply ("SENSOR " ++ toString i ++ " PAIRED?") == "YES")
            && (wReply ("SENSOR " ++ toString i ++ " ACTIVE?") == "YES")) ∧
    (query_devices wReply).2.1 = [3, 7] ∧
    (query_devices wReply).2.2 = 2 := by
  refine ⟨by decide, by decide,
    (C8_discovery_paired_active_ascending wReply (by decide) (by decide)).1,
    by decide, by decide⟩

/-- The per-tick drain of `ScopeWidget.update`: `qsize = q.qsize()` is
captured once, then exactly `qsize` pops (`q.get()`) are performed, each
packet routed via `self.buffers[packet.device_name].add_packet(packet)`.
The shared queue is FIFO: `q0` holds the packets present at the capture and
`arrivals` those pushed by the worker during the drain — they append behind
`q0`, so the `qsize` pops return exactly `q0` under any interleaving.
Buffers are modelled by the per-name sequence of packets delivered to them. -/
def drainTick (q0 arrivals : List Packet) (bufs : String → List Packet) :
    (String → List Packet) × List Packet :=
  let qsize := q0.length
  let q := q0 ++ arrivals
  ((q.take qsize).foldl
      (fun bs p => fun name =>
        if name = p.device_name then bs name ++ [p] else bs name) bufs,
    q.drop qsize)

theorem routeFold (l : List Packet) :
    ∀ (bufs : String → List Packet) (name : String),
      (l.foldl (fun bs p => fun n =>
          if n = p.device_name then bs n ++ [p] else bs n) bufs) name
        = bufs name ++ l.filter (fun p => p.device_name == name) := by
  induction l with
  | nil => intro bufs name; simp
  | cons p l ih =>
      intro bufs name
      rw [List.foldl_cons, ih]
      by_cases h : name = p.device_name
      · have hb : (p.device_name == name) = true := by simp [h]
        simp [h, List.filter_cons, hb]
      · have hb : (p.device_name == name) = false := by
          simp
          intro hh
          exact h hh.symm
        simp [h, List.filter_cons, hb]

/-- C9: the consumer's per-tick drain captures the queue size once and then
pops exactly that many packets — precisely those present at the capture, in
arrival order — routing each into the buffer keyed by its device name;
packets arriving during the drain are left in the queue for the next poll,
so every drain performs a bounded number of pops (the captured size) and
terminates. -/
theorem C9_snapshot_drain_pops_exactly_qsize (q0 arrivals : List Packet)
    (bufs : String → List Packet) :
    ((q0 ++ arrivals).take q0.length = q0) ∧
    (drainTick q0 arrivals bufs).2 = arrivals ∧
    (∀ name, (drainTick q0 arrivals bufs).1 name
      = bufs name ++ q0.filter (fun p => p.device_name == name)) := by
  have ht : (q0 ++ arrivals).take q0.length = q0 := List.take_left q0 arrivals
  refine ⟨ht, List.drop_left q0 arrivals, ?_⟩
  intro name
  show ((q0 ++ arrivals).take q0.length).foldl _ bufs name = _
  rw [ht, routeFold q0 bufs name]

/-- Modelled from the spec: `AveragedMultichannelBuffer` — the moving-average
buffer that `ScopeWidget.init_data` creates when the device manager is a
`TrignoClient` — is missing from `src/` (only its caller is present; the
deques prepared in `TrignoClient._init_state` are unused in the sources
given).  Spec: it "wraps a RingBuffer; maintains per-channel accumulation
state over the last K raw samples;" and on the K-th raw sample "computes the
arithmetic mean per channel, resets the accumulator, and forwards exactly
one averaged sample to the underlying RingBuffer".  A raw sample is one
rational per channel position, `nch` the channel count; `ring` records the
samples forwarded to the underlying ring buffer. -/
structure MABuffer where
  K : Nat
  nch : Nat
  acc : List (List ℚ)
  ring : List (List ℚ)
deriving DecidableEq

/-- Modelled from the spec: `add(raw_sample)` accumulates; once K raw
samples have accumulated it emits the per-channel arithmetic mean into the
ring buffer and resets the accumulator. -/
def MABuffer.add (b : MABuffer) (x : List ℚ) : MABuffer :=
  let acc2 := b.acc ++ [x]
  if acc2.length = b.K then
    { b with
      acc := [],
      ring := b.ring ++ [(List.range b.nch).map (fun c =>
        (acc2.map (fun s => s.getD c 0)).sum / (b.K : ℚ))] }
  else { b with acc := acc2 }

/-- Feeding a stream of raw samples. -/
def MABuffer.feed (b : MABuffer) (xs : List (List ℚ)) : MABuffer :=
  xs.foldl MABuffer.add b

/-- The per-channel arithmetic mean of a block of raw samples. -/
def blockMean (K nch : Nat) (block : List (List ℚ)) : List ℚ :=
  (List.range nch).map (fun c =>
    (block.map (fun s => s.getD c 0)).sum / (K : ℚ))

theorem feed_no_emit (K nch : Nat) :
    ∀ (xs a r : List (List ℚ)), a.length + xs.length < K →
      MABuffer.feed ⟨K, nch, a, r⟩ xs = ⟨K, nch, a ++ xs, r⟩ := by
  intro xs
  induction xs with
  | nil => intro a r h; simp [MABuffer.feed]
  | cons x xs ih =>
      intro a r h
      simp only [List.length_cons] at h
      have hne : (a ++ [x]).length ≠ K := by
        simp only [List.length_append, List.length_singleton]
        omega
      show MABuffer.feed (MABuffer.add ⟨K, nch, a, r⟩ x) xs = _
      rw [show MABuffer.add ⟨K, nch, a, r⟩ x = ⟨K, nch, a ++ [x], r⟩ from by
        simp only [List.length_append, List.length_singleton] at hne
        simp [MABuffer.add]
        omega]
      rw [ih (a ++ [x]) r (by simp; omega)]
      simp

theorem feed_one_block (K nch : Nat) :
    ∀ (xs a r : List (List ℚ)), a.length < K → a.length + xs.length = K →
      MABuffer.feed ⟨K, nch, a, r⟩ xs
        = ⟨K, nch, [], r ++ [blockMean K nch (a ++ xs)]⟩ := by
  intro xs
  induction xs with
  | nil => intro a r hlt heq; simp at heq; omega
  | cons x xs ih =>
      intro a r hlt heq
      simp only [List.length_cons] at heq
      show MABuffer.feed (MABuffer.add ⟨K, nch, a, r⟩ x) xs = _
      by_cases hfull : (a ++ [x]).length = K
      · have hxs : xs = [] := by
          simp only [List.length_append, List.length_singleton] at hfull
          have : xs.length = 0 := by omega
          exact List.length_eq_zero.mp this
        subst hxs
        rw [show MABuffer.add ⟨K, nch, a, r⟩ x
            = ⟨K, nch, [], r ++ [blockMean K nch (a ++ [x])]⟩ from by
          simp [MABuffer.add, hfull, blockMean]]
        simp [MABuffer.feed]
      · rw [show MABuffer.add ⟨K, nch, a, r⟩ x = ⟨K, nch, a ++ [x], r⟩ from by
          have hfull2 := hfull
          simp only [List.length_append, List.length_singleton] at hfull2
          simp [MABuffer.add]
          omega]
        have hlt2 : (a ++ [x]).length < K := by
          simp only [List.length_append, List.length_singleton] at hfull ⊢
          omega
        rw [ih (a ++ [x]) r hlt2 (by simp; omega)]
        simp

theorem feed_characterize (K nch : Nat) (hK : 1 ≤ K) :
    ∀ (n : Nat) (xs r : List (List ℚ)), xs.length = n →
      (MABuffer.feed ⟨K, nch, [], r⟩ xs).ring
          = r ++ (List.range (xs.length / K)).map (fun j =>
              blockMean K nch ((xs.drop (j * K)).take K)) ∧
      (MABuffer.feed ⟨K, nch, [], r⟩ xs).acc
          = xs.drop (K * (xs.length / K)) := by
  intro n
  induction n using Nat.strong_induction_on with
  | _ n ih =>
      intro xs r hn
      by_cases hlt : xs.length < K
      · have hfeed := feed_no_emit K nch xs [] r (by simpa using hlt)
        have hdiv : xs.length / K = 0 := Nat.div_eq_of_lt hlt
        rw [hfeed, hdiv]
        constructor
        · simp
        · simp
      · push_neg at hlt
        have htlen : (xs.take K).length = K := by
          rw [List.length_take]
          omega
        have hfeedsplit : MABuffer.feed ⟨K, nch, [], r⟩ xs
            = MABuffer.feed (MABuffer.feed ⟨K, nch, [], r⟩ (xs.take K))
                (xs.drop K) := by
          conv_lhs => rw [show xs = xs.take K ++ xs.drop K from
            (List.take_append_drop K xs).symm]
          simp only [MABuffer.feed, List.foldl_append]
        have hone := feed_one_block K nch (xs.take K) [] r
          (by simpa using hK) (by simp [htlen])
        simp only [List.nil_append] at hone
        have hrest := ih (xs.length - K) (by omega) (xs.drop K)
          (r ++ [blockMean K nch (xs.take K)]) (by rw [List.length_drop])
        rw [hfeedsplit, hone]
        have hq : xs.length / K = (xs.length - K) / K + 1 := by
          conv_lhs => rw [Nat.div_eq]
          rw [if_pos ⟨by omega, hlt⟩]
        rw [hq]
        rw [List.length_drop] at hrest
        constructor
        · rw [hrest.1, List.append_assoc]
          congr 1
          rw [List.range_succ_eq_map, List.map_cons, List.map_map,
            List.singleton_append]
          congr 1
          · simp
          · apply List.map_congr_left
            intro a ha
            simp only [Function.comp]
            rw [List.drop_drop, show K + a * K = (a + 1) * K from by ring]
        · rw [hrest.2, List.drop_drop]
          congr 1
          ring

/-- C10: starting from an empty accumulator, the moving-average buffer
emits no output before K raw inputs have accumulated, emits exactly one
averaged sample into the underlying ring buffer per K raw inputs (⌊m/K⌋
emissions after m inputs), and the j-th emitted sample is the per-channel
arithmetic mean of the j-th block of K consecutive raw inputs (each block
having exactly K members). -/
theorem C10_moving_average_one_mean_per_K (K nch : Nat) (hK : 1 ≤ K)
    (xs : List (List ℚ)) :
    (MABuffer.feed ⟨K, nch, [], []⟩ xs).ring.length = xs.length / K ∧
    (xs.length < K → (MABuffer.feed ⟨K, nch, [], []⟩ xs).ring = []) ∧
    (∀ j, j < xs.length / K →
      (MABuffer.feed ⟨K, nch, [], []⟩ xs).ring.getD j []
        = blockMean K nch ((xs.drop (j * K)).take K) ∧
      ((xs.drop (j * K)).take K).length = K ∧
      (∀ c, c < nch →
        (blockMean K nch ((xs.drop (j * K)).take K)).getD c 0
          = (((xs.drop (j * K)).take K).map (fun s => s.getD c 0)).sum
            / (K : ℚ))) := by
  have hch := feed_characterize K nch hK xs.length xs [] rfl
  have hring := hch.1
  rw [List.nil_append] at hring
  refine ⟨?_, ?_, ?_⟩
  · rw [hring]
    simp
  · intro hlt
    rw [hring, Nat.div_eq_of_lt hlt]
    simp
  · intro j hj
    refine ⟨?_, ?_, ?_⟩
    · rw [hring, List.getD_eq_getElem?_getD, List.getElem?_map,
        List.getElem?_range hj]
      rfl
    · have h1 : j * K + K ≤ xs.length := by
        have h2 : (j + 1) * K ≤ (xs.length / K) * K :=
          Nat.mul_le_mul_right K hj
        have h3 : (xs.length / K) * K ≤ xs.length :=
          Nat.div_mul_le_self xs.length K
        have h4 : (j + 1) * K = j * K + K := by ring
        omega
      rw [List.length_take, List.length_drop]
      omega
    · intro c hc
      rw [blockMean, List.getD_eq_getElem?_getD, List.getElem?_map,
        List.getElem?_range hc]
      rfl

theorem C10_moving_average_one_mean_per_K_witness :
    (1 : Nat) ≤ 2 ∧
    (0 : Nat) < ([[(1 : ℚ)], [3], [5]] : List (List ℚ)).length / 2 ∧
    (MABuffer.feed ⟨2, 1, [], []⟩ [[(1 : ℚ)], [3], [5]]).ring.length
      = ([[(1 : ℚ)], [3], [5]] : List (List ℚ)).length / 2 ∧
    (MABuffer.feed ⟨2, 1, [], []⟩ [[(1 : ℚ)], [3], [5]]).ring.getD 0 []
      = blockMean 2 1
          ((([[(1 : ℚ)], [3], [5]] : List (List ℚ)).drop (0 * 2)).take 2) := by
  have h := C10_moving_average_one_mean_per_K 2 1 (by decide)
    [[(1 : ℚ)], [3], [5]]
  exact ⟨by decide, by decide, h.1, (h.2.2 0 (by decide)).1⟩
